import Mathlib

/-!
Verification of the access-probing engine of a FHIR access-inspection tool.

The definitions below are a shallow embedding of the TypeScript backend
(`AidboxService` in the services module together with the access routes).
HTTP traffic is modelled by outcome values supplied as parameters: a probe
request either settles with a response (status, headers, parsed JSON body)
or throws; JavaScript truthiness (`||` chains, `!x`) is embedded explicitly
so that empty strings and missing values behave exactly as in the source.
-/

namespace AccessProbe

/-! ## JavaScript truthiness helpers -/

/-- Truthiness of a JS string-or-nullish value: `null`/`undefined` and the
empty string are falsy. -/
def jsTruthyStr : Option String → Bool
  | some s => s != ""
  | none => false

/-- JS `a || b` on string-or-nullish values. -/
def jsOrStr (a b : Option String) : Option String :=
  if jsTruthyStr a then a else b

/-- JS `a || fb` where `fb` is a plain string fallback. -/
def jsOrStrD (a : Option String) (fb : String) : String :=
  match jsOrStr a none with
  | some s => s
  | none => fb

/-- JS `a || fb` on numbers: `0` is falsy. -/
def jsOrNum (a : Option Nat) (fb : Nat) : Nat :=
  match a with
  | some n => if n != 0 then n else fb
  | none => fb

/-- `needle` occurs at the start of `hay`. -/
def prefixOfList : List Char → List Char → Bool
  | [], _ => true
  | _ :: _, [] => false
  | c :: cs, h :: hs => c == h && prefixOfList cs hs

/-- `needle` occurs somewhere in `hay` (JS `hay.includes(needle)`). -/
def hasSubList : List Char → List Char → Bool
  | [], needle => prefixOfList needle []
  | h :: t, needle => prefixOfList needle (h :: t) || hasSubList t needle

/-- JS `hay.includes(needle)` on strings. -/
def strIncludes (hay needle : String) : Bool :=
  hasSubList hay.data needle.data

/-! ## Data model -/

/-- One entry of the per-(resourceType, operation) result record
(`AccessTestResult` in the source).  The JSON response body is kept opaque
as an optional string. -/
structure AccessTestResult where
  operation : String
  resourceType : String
  method : String
  path : String
  status : Nat
  statusText : String
  accessPolicy : Option String
  allowed : Bool
  unauthorized : Bool
  denied : Bool
  notFound : Bool
  error : Option String
  body : Option String
  deriving Repr, DecidableEq

/-- An operation of the fixed catalog (`OperationConfig` in the source):
its key, HTTP method and URL-construction rule. -/
structure OperationConfig where
  key : String
  method : String
  getUrl : String → Option String → String

/-- JS `resourceId || '__nonexistent__'`. -/
def ridOrPlaceholder : Option String → String
  | some s => if s != "" then s else "__nonexistent__"
  | none => "__nonexistent__"

/-- The fixed ordered operation catalog (`OPERATIONS` in the source). -/
def OPERATIONS : List OperationConfig := [
  ⟨"search", "GET", fun resourceType _ => resourceType ++ "?_count=0"⟩,
  ⟨"read", "GET", fun resourceType resourceId =>
    resourceType ++ "/" ++ ridOrPlaceholder resourceId⟩,
  ⟨"create", "POST", fun resourceType _ => resourceType⟩,
  ⟨"update", "PUT", fun resourceType resourceId =>
    resourceType ++ "/" ++ ridOrPlaceholder resourceId⟩,
  ⟨"patch", "PATCH", fun resourceType resourceId =>
    resourceType ++ "/" ++ ridOrPlaceholder resourceId⟩,
  ⟨"delete", "DELETE", fun resourceType resourceId =>
    resourceType ++ "/" ++ ridOrPlaceholder resourceId⟩]

/-- A settled HTTP response of one probe request: the status, the three
headers the policy-attribution step recognizes, and the parsed JSON body
(`none` when `response.json()` failed and was caught to `null`). -/
structure FetchResponse where
  status : Nat
  xAccessPolicy : Option String
  xAidboxAccessPolicy : Option String
  xDebug : Option String
  jsonBody : Option String
  deriving Repr, DecidableEq

/-- Outcome of one probe HTTP request: settled, or thrown with
`error.message` when the thrown value was an `Error` (`none` otherwise). -/
inductive FetchOutcome where
  | ok (r : FetchResponse)
  | err (errMsg : Option String)
  deriving Repr, DecidableEq

/-- One entry of the policy-evaluation trace returned by the
`__debug=policy` diagnostic request. -/
structure PolicyEntry where
  id : Option String
  evalResult : Option Bool
  deriving Repr, DecidableEq

/-- The `request` sub-object of a policy-evaluation trace. -/
structure DebugRequest where
  policies : Option (List PolicyEntry)
  deriving Repr, DecidableEq

/-- The parsed JSON of the diagnostic response. -/
structure DebugData where
  policies : Option (List PolicyEntry)
  request : Option DebugRequest
  deriving Repr, DecidableEq

/-- Outcome of the diagnostic (`__debug=policy`) request: any throw along
the way is `err`. -/
inductive DebugOutcome where
  | ok (data : DebugData)
  | err
  deriving Repr, DecidableEq

/-! ## Result Classifier and single-probe engine -/

/-- `getStatusText` from the source. -/
def getStatusText (status : Nat) : String :=
  if status = 200 then "OK"
  else if status = 201 then "Created"
  else if status = 204 then "No Content"
  else if status = 400 then "Bad Request"
  else if status = 401 then "Unauthorized"
  else if status = 403 then "Forbidden"
  else if status = 404 then "Not Found"
  else if status = 405 then "Method Not Allowed"
  else if status = 409 then "Conflict"
  else if status = 410 then "Gone"
  else if status = 422 then "Unprocessable Entity"
  else if status = 500 then "Internal Server Error"
  else "Unknown"

/-- `getAccessPolicyFromHeaders` from the source: the `||` chain over the
three recognized headers, ending in `null`. -/
def getAccessPolicyFromHeaders (r : FetchResponse) : Option String :=
  jsOrStr r.xAccessPolicy (jsOrStr r.xAidboxAccessPolicy (jsOrStr r.xDebug none))

/-- `data.policies || data.request?.policies || []` from `findAllowingPolicy`
(arrays are always truthy in JS, missing fields are falsy). -/
def jsPolicies (data : DebugData) : List PolicyEntry :=
  match data.policies with
  | some l => l
  | none =>
    match data.request with
    | some req =>
      match req.policies with
      | some l => l
      | none => []
    | none => []

/-- `findAllowingPolicy` from the source: on any failure return `null`;
otherwise take the first trace entry whose `eval-result` is `true` and
return its id when that id is truthy. -/
def findAllowingPolicy (out : DebugOutcome) : Option String :=
  match out with
  | .err => none
  | .ok data =>
    match (jsPolicies data).find? (fun p => p.evalResult == some true) with
    | some p =>
      match p.id with
      | some s => if s != "" then some s else none
      | none => none
    | none => none

/-- Request body sent by `testSingleOperation` for create/update/patch
(`JSON.stringify` of the literals in the source). -/
def requestBodyFor (opKey resourceType : String) (sampleId : Option String) : Option String :=
  if opKey = "create" then
    some ("\x7b\"resourceType\":\"" ++ resourceType ++ "\"\x7d")
  else if opKey = "update" then
    some ("\x7b\"resourceType\":\"" ++ resourceType ++ "\",\"id\":\"" ++
      ridOrPlaceholder sampleId ++ "\"\x7d")
  else if opKey = "patch" then
    some ("[\x7b\"op\":\"test\",\"path\":\"/resourceType\",\"value\":\"" ++
      resourceType ++ "\"\x7d]")
  else none

/-- The `accessAllowed` expression of `testSingleOperation`: 2xx, 404, 410
and 422 count as allowed. -/
def accessAllowedB (status : Nat) : Bool :=
  (200 ≤ status && status < 300) || status == 404 || status == 410 || status == 422

/-- `testSingleOperation` from the source.  Returns the classified result
together with the number of diagnostic (`__debug=policy`) requests issued
(0 or 1).  `outcome` models the probe request itself, `dbg` the diagnostic
request (only consulted when that request is issued). -/
def testSingleOperation (resourceType : String) (op : OperationConfig)
    (userAuth : String) (sampleId : Option String)
    (outcome : FetchOutcome) (dbg : DebugOutcome) : AccessTestResult × Nat :=
  let baseUrl := op.getUrl resourceType (jsOrStr sampleId none)
  let url := "/fhir/" ++ baseUrl
  let _reqBody := requestBodyFor op.key resourceType sampleId
  let _auth := userAuth
  match outcome with
  | .err m =>
    ({ operation := op.key, resourceType := resourceType, method := op.method,
       path := url, status := 0, statusText := "Error", accessPolicy := none,
       allowed := false, unauthorized := false, denied := false,
       notFound := false, error := some (m.getD "Unknown error"),
       body := none }, 0)
  | .ok r =>
    let status := r.status
    let responseBody := r.jsonBody
    let headerPolicy := getAccessPolicyFromHeaders r
    let accessAllowed := accessAllowedB status
    let apc : Option String × Nat :=
      if accessAllowed && !(jsTruthyStr headerPolicy) then (findAllowingPolicy dbg, 1)
      else (headerPolicy, 0)
    ({ operation := op.key, resourceType := resourceType, method := op.method,
       path := url, status := status, statusText := getStatusText status,
       accessPolicy := apc.1, allowed := accessAllowed,
       unauthorized := status == 401, denied := status == 403,
       notFound := status == 404 || status == 410,
       error := if 400 ≤ status then responseBody else none,
       body := responseBody }, apc.2)

/-! ## JS-object records (string-keyed, insertion-ordered, last write wins) -/

/-- JS object property assignment `obj[k] = v`: replace in place when the
key exists, append otherwise. -/
def upsert (k : String) (v : α) : List (String × α) → List (String × α)
  | [] => [(k, v)]
  | (k2, v2) :: t => if k2 = k then (k, v) :: t else (k2, v2) :: upsert k v t

/-- JS property read `obj[k]`. -/
def getKey (k : String) : List (String × α) → Option α
  | [] => none
  | (k2, v) :: t => if k2 = k then some v else getKey k t

/-- Modify the value stored at `k` (no effect when `k` is absent). -/
def updateKey (k : String) (f : α → α) : List (String × α) → List (String × α)
  | [] => []
  | (k2, v) :: t => if k2 = k then (k2, f v) :: t else (k2, v) :: updateKey k f t

/-- The keys of a record, in order. -/
def recKeys (l : List (String × α)) : List String := l.map Prod.fst

/-! ## Batch probe engine -/

/-- Inner record: operation key ↦ classified result. -/
abbrev OpResults := List (String × AccessTestResult)

/-- Outer record: resource-type name ↦ inner record. -/
abbrev BatchResults := List (String × OpResults)

/-- The `testPromises` list of `testAccessBatch`: the cross product
resource types × operations, in construction order. -/
def pairsOf (rts : List String) : List (String × OperationConfig) :=
  (rts.map (fun rt => OPERATIONS.map (fun op => (rt, op)))).flatten

/-- The settled result of the `i`-th probe promise, for the pair
`(rt, op)`: `o i` models its HTTP outcome and `d i` the outcome of its
diagnostic request (when issued). -/
def probeResultAt (userAuth : String) (sids : String → Option String)
    (o : Nat → FetchOutcome) (d : Nat → DebugOutcome)
    (i : Nat) (rt : String) (op : OperationConfig) : AccessTestResult :=
  (testSingleOperation rt op userAuth (sids rt) (o i) (d i)).1

/-- The result-assignment loop of `testAccessBatch`:
`results[resourceType][opKey] = testResults[i]` over the promises in
order, with `i` the promise index. -/
def assignResults (userAuth : String) (sids : String → Option String)
    (o : Nat → FetchOutcome) (d : Nat → DebugOutcome) :
    List (String × OperationConfig) → Nat → BatchResults → BatchResults
  | [], _, acc => acc
  | (rt, op) :: rest, i, acc =>
    assignResults userAuth sids o d rest (i + 1)
      (updateKey rt (upsert op.key (probeResultAt userAuth sids o d i rt op)) acc)

/-- The initialization loop of `testAccessBatch`: `results[resourceType] = {}`
for each requested resource type, in order. -/
def initResults (rts : List String) : BatchResults :=
  rts.foldl (fun acc rt => upsert rt [] acc) []

/-- `testAccessBatch` from the source: initialize the record, build the
cross product of probe promises, settle them all, and assign each settled
result back into the record. -/
def testAccessBatch (rts : List String) (userAuth : String)
    (sids : String → Option String) (o : Nat → FetchOutcome)
    (d : Nat → DebugOutcome) : BatchResults :=
  assignResults userAuth sids o d (pairsOf rts) 0 (initResults rts)

/-- Number of probe HTTP requests issued by one `testAccessBatch` call
(one per promise; diagnostic requests not counted). -/
def requestCount (rts : List String) : Nat := (pairsOf rts).length

/-- Total number of (resourceType, operation) entries of a result set. -/
def totalEntries (outer : BatchResults) : Nat :=
  (outer.map (fun e => e.2.length)).sum

/-- Read the entry for `(rt, opKey)` of a result set. -/
def lookupResult (outer : BatchResults) (rt opKey : String) : Option AccessTestResult :=
  match getKey rt outer with
  | some inner => getKey opKey inner
  | none => none

/-- The assignments affecting the record entry of resource type `rt`: the
sub-sequence of promise pairs with first component `rt`, each paired with
its promise index (counting from `i`). -/
def opsFor (rt : String) : List (String × OperationConfig) → Nat → List (OperationConfig × Nat)
  | [], _ => []
  | (rt2, op) :: rest, i =>
    if rt2 = rt then (op, i) :: opsFor rt rest (i + 1) else opsFor rt rest (i + 1)

/-- Replay a sequence of assignments over the inner record of one resource
type. -/
def applyAll (userAuth : String) (sids : String → Option String)
    (o : Nat → FetchOutcome) (d : Nat → DebugOutcome) (rt : String)
    (inner : OpResults) (l : List (OperationConfig × Nat)) : OpResults :=
  l.foldl (fun inn oi => upsert oi.1.key (probeResultAt userAuth sids o d oi.2 rt oi.1) inn) inner

/-- The last element of the list whose operation key is `k`. -/
def lastMatch (k : String) : List (OperationConfig × Nat) → Option (OperationConfig × Nat)
  | [] => none
  | x :: t =>
    match lastMatch k t with
    | some y => some y
    | none => if x.1.key = k then some x else none

/-- Pair each list element with its position, counting from `i`. -/
def enumFrom (i : Nat) : List OperationConfig → List (OperationConfig × Nat)
  | [] => []
  | op :: t => (op, i) :: enumFrom (i + 1) t

/-! ## Credential Resolver -/

/-- Token endpoint response (`TokenResponse` in the source). -/
structure TokenResponse where
  access_token : String
  token_type : String
  expires_in : Option Nat
  error : Option String
  error_description : Option String
  deriving Repr, DecidableEq

/-- Cached service token (`CachedToken` in the source); times are Unix
milliseconds. -/
structure CachedToken where
  accessToken : String
  expiresAt : Nat
  deriving Repr, DecidableEq

/-- Outcome of a `POST /auth/token` request whose body is only parsed on a
2xx response (`getAccessToken`, `getClientToken`): a non-ok response is
read as text, an ok response as JSON. -/
inductive TokenHttpOutcome where
  | httpFail (status : Nat) (text : String)
  | success (tr : TokenResponse)
  deriving Repr, DecidableEq

/-- Outcome of the password-grant token exchange (`getUserToken` parses the
JSON body regardless of the status). -/
structure UserTokenExchange where
  status : Nat
  tokenData : TokenResponse
  deriving Repr, DecidableEq

/-- `getAccessToken` from the source, as a state transformer on the
service-token cache.  Returns the token, the new cache, and the number of
token-endpoint fetches performed (0 on a cache hit, 1 otherwise). -/
def getAccessToken (cache : Option CachedToken) (now : Nat)
    (tok : TokenHttpOutcome) : Except String (String × Option CachedToken × Nat) :=
  let fetchFresh : Except String (String × Option CachedToken × Nat) :=
    match tok with
    | .httpFail status text =>
      .error ("Failed to get access token: " ++ toString status ++ " " ++ text)
    | .success tr =>
      let expiresIn := jsOrNum tr.expires_in 600
      .ok (tr.access_token, some ⟨tr.access_token, now + expiresIn * 1000⟩, 1)
  match cache with
  | some c => if now + 30000 < c.expiresAt then .ok (c.accessToken, some c, 0) else fetchFresh
  | none => fetchFresh

/-- `getClientToken` from the source (client-credentials grant; no cache
involvement). -/
def getClientToken (clientId clientSecret : String)
    (tok : TokenHttpOutcome) : Except String String :=
  let _ := (clientId, clientSecret)
  match tok with
  | .httpFail status text =>
    .error ("Failed to get client token: " ++ toString status ++ " " ++ text)
  | .success tr => .ok tr.access_token

/-- `getUserToken` from the source (resource-owner password grant through
the configured auth client; no cache involvement). -/
def getUserToken (userAuthClientId : String) (userId password : String)
    (ex : UserTokenExchange) : Except String String :=
  let _ := (userId, password)
  let respOk := 200 ≤ ex.status && ex.status < 300
  if !respOk || jsTruthyStr ex.tokenData.error then
    if ex.tokenData.error == some "invalid_grant" &&
        (match ex.tokenData.error_description with
         | some d => strIncludes d "password grant is not allowed"
         | none => false) then
      .error ("Password grant not allowed for client \"" ++ userAuthClientId ++
        "\". Either enable password grant on this client in Aidbox, or set " ++
        "AIDBOX_USER_AUTH_CLIENT_ID/SECRET environment variables to a client " ++
        "that supports password grant.")
    else
      .error (jsOrStrD ex.tokenData.error_description
        (jsOrStrD ex.tokenData.error
          ("Failed to authenticate user: " ++ toString ex.status)))
  else
    .ok ex.tokenData.access_token

/-- Identity descriptor passed from the caller (`UserAuthInfo`). -/
inductive AuthKind where
  | user
  | client
  deriving Repr, DecidableEq

/-- `UserAuthInfo` from the source. -/
structure UserAuthInfo where
  type : AuthKind
  id : String
  secret : Option String
  password : Option String
  deriving Repr, DecidableEq

/-- `resolveAuthHeader` from the source: clients use the client-credentials
grant with their own id/secret, users the password grant through the
configured auth client. -/
def resolveAuthHeader (userAuthClientId : String) (a : UserAuthInfo)
    (tokC : TokenHttpOutcome) (tokU : UserTokenExchange) : Except String String :=
  match a.type with
  | .client =>
    if !(jsTruthyStr a.secret) then
      .error "Client secret is required for client authentication."
    else
      (getClientToken a.id (a.secret.getD "") tokC).map (fun t => "Bearer " ++ t)
  | .user =>
    if !(jsTruthyStr a.password) then
      .error ("Password is required for user authentication. " ++
        "Please enter the user\x27s password.")
    else
      (getUserToken userAuthClientId a.id (a.password.getD "") tokU).map
        (fun t => "Bearer " ++ t)

/-- `resolveAuthHeader` viewed at the service-state level: the source
method never reads or assigns the `_cachedToken` field, so the cache is
passed through unchanged. -/
def resolveAuthHeaderS (cache : Option CachedToken) (userAuthClientId : String)
    (a : UserAuthInfo) (tokC : TokenHttpOutcome) (tokU : UserTokenExchange) :
    Except String String × Option CachedToken :=
  (resolveAuthHeader userAuthClientId a tokC tokU, cache)

/-! ## Comparator -/

/-- `CompareResults` from the source: the two result sets, side by side. -/
structure CompareResults where
  user1 : BatchResults
  user2 : BatchResults
  deriving Repr, DecidableEq

/-- The `/compare` route handler core: resolve both credentials
(`Promise.all`, so either failure fails the whole call), then run the two
full batch probes and return both result sets unmodified. -/
def compareAccess (rts : List String) (userAuthClientId : String)
    (a1 a2 : UserAuthInfo)
    (tokC1 : TokenHttpOutcome) (tokU1 : UserTokenExchange)
    (tokC2 : TokenHttpOutcome) (tokU2 : UserTokenExchange)
    (o1 : Nat → FetchOutcome) (d1 : Nat → DebugOutcome)
    (o2 : Nat → FetchOutcome) (d2 : Nat → DebugOutcome) : Except String CompareResults :=
  match resolveAuthHeader userAuthClientId a1 tokC1 tokU1,
        resolveAuthHeader userAuthClientId a2 tokC2 tokU2 with
  | .error e, _ => .error e
  | .ok _, .error e => .error e
  | .ok h1, .ok h2 =>
    .ok ⟨testAccessBatch rts h1 (fun _ => none) o1 d1,
         testAccessBatch rts h2 (fun _ => none) o2 d2⟩

/-! ## Specification-side classification table -/

/-- The classification table of the specification, written from its words:
flags `(allowed, unauthorized, denied, notFound)` as a function of the
status alone. -/
def specStatusFlags (status : Nat) : Bool × Bool × Bool × Bool :=
  if 200 ≤ status ∧ status < 300 then (true, false, false, false)
  else if status = 401 then (false, true, false, false)
  else if status = 403 then (false, false, true, false)
  else if status = 404 ∨ status = 410 then (true, false, false, true)
  else if status = 422 then (true, false, false, false)
  else (false, false, false, false)

/-- The four flags of a classified result, in table order. -/
def flagsOf (res : AccessTestResult) : Bool × Bool × Bool × Bool :=
  (res.allowed, res.unauthorized, res.denied, res.notFound)

end AccessProbe

namespace AccessProbe

/-! ## Helper lemmas -/

theorem find?_first_of_split {α : Type} (pb : α → Bool) :
    ∀ (pre : List α) (x : α) (post : List α),
      (∀ q ∈ pre, pb q = false) → pb x = true →
      (pre ++ x :: post).find? pb = some x := by
  intro pre x post hpre hx
  induction pre with
  | nil => simp [List.find?_cons, hx]
  | cons a t ih =>
    have ha : pb a = false := hpre a (List.mem_cons_self a t)
    simp only [List.cons_append, List.find?_cons, ha]
    exact ih (fun q hq => hpre q (List.mem_cons_of_mem a hq))

/-! ## Claim theorems: Result Classifier -/

/-- C1: for every settled probe response the classifier computes the four
flags solely from the status code, following the specification table
(2xx ↦ allowed; 401 ↦ unauthorized; 403 ↦ denied; 404/410 ↦ allowed and
notFound; 422 ↦ allowed; transport failure and every other status ↦ all
flags false). -/
theorem classifier_matches_spec_table :
    ∀ (rt : String) (op : OperationConfig) (u : String) (sid : Option String)
      (r : FetchResponse) (dbg : DebugOutcome) (m : Option String),
      flagsOf ((testSingleOperation rt op u sid (.ok r) dbg).1) = specStatusFlags r.status ∧
      flagsOf ((testSingleOperation rt op u sid (.err m) dbg).1) = (false, false, false, false) := by
  intro rt op u sid r dbg m
  constructor
  · simp only [testSingleOperation, flagsOf, specStatusFlags, accessAllowedB]
    split_ifs with h1 h2 h3 h4 h5 <;>
      simp_all [Prod.mk.injEq] <;> omega
  · simp [testSingleOperation, flagsOf]

/-- C4: for every result produced by the classifier, `unauthorized` and
`denied` are never both true, and `allowed` is never true together with
`unauthorized` or with `denied`. -/
theorem flags_mutually_exclusive :
    ∀ (rt : String) (op : OperationConfig) (u : String) (sid : Option String)
      (outcome : FetchOutcome) (dbg : DebugOutcome),
      ((testSingleOperation rt op u sid outcome dbg).1.unauthorized &&
        (testSingleOperation rt op u sid outcome dbg).1.denied) = false ∧
      ((testSingleOperation rt op u sid outcome dbg).1.allowed &&
        (testSingleOperation rt op u sid outcome dbg).1.unauthorized) = false ∧
      ((testSingleOperation rt op u sid outcome dbg).1.allowed &&
        (testSingleOperation rt op u sid outcome dbg).1.denied) = false := by
  intro rt op u sid outcome dbg
  cases outcome with
  | err m => simp [testSingleOperation]
  | ok r =>
    simp only [testSingleOperation, accessAllowedB]
    refine ⟨?_, ?_, ?_⟩ <;> simp <;> omega

/-- C5: for every result produced by the classifier, `notFound = true`
implies `allowed = true`. -/
theorem notFound_implies_allowed :
    ∀ (rt : String) (op : OperationConfig) (u : String) (sid : Option String)
      (outcome : FetchOutcome) (dbg : DebugOutcome),
      (testSingleOperation rt op u sid outcome dbg).1.notFound = true →
      (testSingleOperation rt op u sid outcome dbg).1.allowed = true := by
  intro rt op u sid outcome dbg h
  cases outcome with
  | err m => simp [testSingleOperation] at h
  | ok r =>
    simp only [testSingleOperation, accessAllowedB] at h ⊢
    simp at h ⊢
    omega

/-- Witness for C5: a 404 read probe has `notFound = true` and indeed
`allowed = true`. -/
theorem notFound_implies_allowed_witness :
    (testSingleOperation "Patient" (OPERATIONS.get ⟨1, by decide⟩) "Bearer t" none
      (.ok ⟨404, none, none, none, none⟩) .err).1.allowed = true :=
  notFound_implies_allowed "Patient" (OPERATIONS.get ⟨1, by decide⟩) "Bearer t" none
    (.ok ⟨404, none, none, none, none⟩) .err (by decide)

/-- C6: policy attribution uses a recognized response header when present;
otherwise exactly one diagnostic `__debug=policy` request is issued exactly
when the outcome is classified allowed, taking the identifier of the first
trace entry whose eval-result is true; a failed diagnostic yields a null
policy, and the diagnostic outcome influences no field other than
`accessPolicy`. -/
theorem policy_attribution_best_effort :
    ∀ (rt : String) (op : OperationConfig) (u : String) (sid : Option String)
      (r : FetchResponse) (dbg dbg' : DebugOutcome) (m : Option String) (data : DebugData),
      (jsTruthyStr (getAccessPolicyFromHeaders r) = true →
        (testSingleOperation rt op u sid (.ok r) dbg).1.accessPolicy = getAccessPolicyFromHeaders r ∧
        (testSingleOperation rt op u sid (.ok r) dbg).2 = 0) ∧
      (accessAllowedB r.status = true → jsTruthyStr (getAccessPolicyFromHeaders r) = false →
        (testSingleOperation rt op u sid (.ok r) dbg).2 = 1 ∧
        (testSingleOperation rt op u sid (.ok r) dbg).1.accessPolicy = findAllowingPolicy dbg) ∧
      (accessAllowedB r.status = false →
        (testSingleOperation rt op u sid (.ok r) dbg).2 = 0 ∧
        (testSingleOperation rt op u sid (.ok r) dbg).1.accessPolicy = getAccessPolicyFromHeaders r) ∧
      (findAllowingPolicy .err = none) ∧
      (∀ pre p post, jsPolicies data = pre ++ p :: post →
        (∀ q ∈ pre, (q.evalResult == some true) = false) →
        p.evalResult = some true → ∀ s, p.id = some s → s ≠ "" →
        findAllowingPolicy (.ok data) = some s) ∧
      ({ (testSingleOperation rt op u sid (.ok r) dbg).1 with accessPolicy := none } =
        { (testSingleOperation rt op u sid (.ok r) dbg').1 with accessPolicy := none }) ∧
      ((testSingleOperation rt op u sid (.err m) dbg).2 = 0 ∧
        (testSingleOperation rt op u sid (.err m) dbg).1.accessPolicy = none) := by
  intro rt op u sid r dbg dbg' m data
  refine ⟨?_, ?_, ?_, rfl, ?_, ?_, by simp [testSingleOperation]⟩
  · intro h
    simp [testSingleOperation, h]
  · intro ha hh
    simp [testSingleOperation, ha, hh]
  · intro ha
    simp [testSingleOperation, ha]
  · intro pre p post hsplit hpre hp s hid hs
    simp only [findAllowingPolicy, hsplit]
    rw [find?_first_of_split _ pre p post hpre (by simp [hp])]
    simp [hid, hs]
  · cases hc : (accessAllowedB r.status && !(jsTruthyStr (getAccessPolicyFromHeaders r)))
    · simp [testSingleOperation, hc]
    · simp [testSingleOperation, hc]

/-- Witness for C6: an allowed (200) search probe without policy headers
issues one diagnostic request and takes the first allowing policy of the
trace. -/
theorem policy_attribution_best_effort_witness :
    (testSingleOperation "Patient" (OPERATIONS.get ⟨0, by decide⟩) "Bearer t" none
      (.ok ⟨200, none, none, none, none⟩)
      (.ok ⟨some [⟨some "pol1", some false⟩, ⟨some "pol2", some true⟩], none⟩)).2 = 1 ∧
    (testSingleOperation "Patient" (OPERATIONS.get ⟨0, by decide⟩) "Bearer t" none
      (.ok ⟨200, none, none, none, none⟩)
      (.ok ⟨some [⟨some "pol1", some false⟩, ⟨some "pol2", some true⟩], none⟩)).1.accessPolicy =
      findAllowingPolicy (.ok ⟨some [⟨some "pol1", some false⟩, ⟨some "pol2", some true⟩], none⟩) :=
  (policy_attribution_best_effort "Patient" (OPERATIONS.get ⟨0, by decide⟩) "Bearer t" none
    ⟨200, none, none, none, none⟩
    (.ok ⟨some [⟨some "pol1", some false⟩, ⟨some "pol2", some true⟩], none⟩)
    .err none ⟨none, none⟩).2.1 (by decide) (by decide)

/-! ## Claim theorems: Credential Resolver -/

/-- C8: the service token is returned from the cache exactly when
`expiresAt > now + 30000`; otherwise a fresh token is fetched and the
cache replaced with the new expiry; a failed fetch surfaces as an error;
per-identity credential resolution passes the cache through untouched. -/
theorem service_token_cache_behavior :
    ∀ (c : CachedToken) (cache : Option CachedToken) (now : Nat)
      (tok : TokenHttpOutcome) (tr : TokenResponse),
      (now + 30000 < c.expiresAt →
        getAccessToken (some c) now tok = .ok (c.accessToken, some c, 0)) ∧
      (getAccessToken none now (.success tr) =
        .ok (tr.access_token, some ⟨tr.access_token, now + jsOrNum tr.expires_in 600 * 1000⟩, 1)) ∧
      (¬ (now + 30000 < c.expiresAt) →
        getAccessToken (some c) now (.success tr) =
        .ok (tr.access_token, some ⟨tr.access_token, now + jsOrNum tr.expires_in 600 * 1000⟩, 1)) ∧
      (∀ s t, getAccessToken none now (.httpFail s t) =
        .error ("Failed to get access token: " ++ toString s ++ " " ++ t)) ∧
      (∀ res, getAccessToken cache now tok = .ok res →
        (res.2.2 = 0 ↔ ∃ c2, cache = some c2 ∧ now + 30000 < c2.expiresAt)) ∧
      (∀ uacid a tokC tokU, (resolveAuthHeaderS cache uacid a tokC tokU).2 = cache) := by
  intro c cache now tok tr
  refine ⟨?_, by simp [getAccessToken], ?_, fun s t => rfl, ?_, fun _ _ _ _ => rfl⟩
  · intro h
    simp [getAccessToken, h]
  · intro h
    simp [getAccessToken, h]
  · intro res hres
    cases cache with
    | none =>
      cases tok with
      | httpFail s t => simp [getAccessToken] at hres
      | success tr2 =>
        simp [getAccessToken] at hres
        subst hres
        simp
    | some c2 =>
      by_cases h : now + 30000 < c2.expiresAt
      · simp [getAccessToken, h] at hres
        subst hres
        simp [h]
      · cases tok with
        | httpFail s t => simp [getAccessToken, h] at hres
        | success tr2 =>
          simp [getAccessToken, h] at hres
          subst hres
          simp [h]

/-- Witness for C8: with 100 seconds of validity left, the cached token is
returned and no fetch happens, even when the token endpoint would fail. -/
theorem service_token_cache_behavior_witness :
    getAccessToken (some ⟨"tok", 100000⟩) 0 (.httpFail 500 "boom") =
      .ok ("tok", some ⟨"tok", 100000⟩, 0) :=
  (service_token_cache_behavior ⟨"tok", 100000⟩ none 0 (.httpFail 500 "boom")
    ⟨"", "", none, none, none⟩).1 (by decide)

/-- C9: a password-grant failure with error `invalid_grant` whose
description mentions that the password grant is not allowed raises the
dedicated error naming the configured auth client and the disabled grant
type; every other grant failure with a server-supplied description raises
that description verbatim. -/
theorem password_grant_error_reporting :
    ∀ (uacid userId pwd : String) (ex : UserTokenExchange) (d : String),
      (ex.tokenData.error = some "invalid_grant" →
        ex.tokenData.error_description = some d →
        strIncludes d "password grant is not allowed" = true →
        getUserToken uacid userId pwd ex =
          .error ("Password grant not allowed for client \"" ++ uacid ++
            "\". Either enable password grant on this client in Aidbox, or set " ++
            "AIDBOX_USER_AUTH_CLIENT_ID/SECRET environment variables to a client " ++
            "that supports password grant.")) ∧
      ((!(200 ≤ ex.status && ex.status < 300) || jsTruthyStr ex.tokenData.error) = true →
        ex.tokenData.error_description = some d → d ≠ "" →
        ¬(ex.tokenData.error = some "invalid_grant" ∧
          strIncludes d "password grant is not allowed" = true) →
        getUserToken uacid userId pwd ex = .error d) := by
  intro uacid userId pwd ex d
  constructor
  · intro herr hdesc hinc
    simp [getUserToken, herr, hdesc, hinc]
    intro _ _
    decide
  · intro hfail hdesc hne hnot
    simp only [getUserToken, hfail, if_true]
    have hcond : (ex.tokenData.error == some "invalid_grant" &&
        (match ex.tokenData.error_description with
         | some d2 => strIncludes d2 "password grant is not allowed"
         | none => false)) = false := by
      rw [hdesc]
      by_cases he : ex.tokenData.error = some "invalid_grant"
      · have : strIncludes d "password grant is not allowed" = false := by
          cases hs : strIncludes d "password grant is not allowed"
          · rfl
          · exact absurd ⟨he, hs⟩ hnot
        simp [this]
      · simp [he]
    rw [hcond]
    simp [jsOrStrD, jsOrStr, jsTruthyStr, hdesc, hne]

/-- Witness for C9: a 400 `invalid_grant` response whose description says
the password grant is not allowed produces the dedicated error naming the
auth client. -/
theorem password_grant_error_reporting_witness :
    getUserToken "my-client" "alice" "pw"
      ⟨400, ⟨"", "", none, some "invalid_grant",
        some "this client: password grant is not allowed here"⟩⟩ =
      .error ("Password grant not allowed for client \"my-client\"" ++
        ". Either enable password grant on this client in Aidbox, or set " ++
        "AIDBOX_USER_AUTH_CLIENT_ID/SECRET environment variables to a client " ++
        "that supports password grant.") := by
  have := (password_grant_error_reporting "my-client" "alice" "pw"
    ⟨400, ⟨"", "", none, some "invalid_grant",
      some "this client: password grant is not allowed here"⟩⟩
    "this client: password grant is not allowed here").1 rfl rfl (by decide)
  simpa using this

end AccessProbe

namespace AccessProbe

section RecordLemmas

variable {α : Type}

theorem getKey_upsert (k' k : String) (v : α) (l : List (String × α)) :
    getKey k' (upsert k v l) = if k = k' then some v else getKey k' l := by
  induction l with
  | nil => simp [upsert, getKey]
  | cons e t ih =>
    obtain ⟨k2, v2⟩ := e
    by_cases h2 : k2 = k
    · subst h2
      by_cases h : k2 = k' <;> simp [upsert, getKey, h]
    · by_cases ha : k2 = k'
      · by_cases hb : k = k'
        · exact absurd (ha.trans hb.symm) h2
        · have hne : ¬ k' = k := fun hh => hb hh.symm
          simp [upsert, getKey, h2, ha, hb, hne, ih]
      · by_cases hb : k = k'
        · subst hb
          simp [upsert, getKey, h2, ha, ih]
        · simp [upsert, getKey, h2, ha, hb, ih]

theorem recKeys_upsert (k : String) (v : α) (l : List (String × α)) :
    recKeys (upsert k v l) = if k ∈ recKeys l then recKeys l else recKeys l ++ [k] := by
  induction l with
  | nil => simp [upsert, recKeys]
  | cons e t ih =>
    obtain ⟨k2, v2⟩ := e
    by_cases h2 : k2 = k
    · subst h2
      simp [upsert, recKeys]
    · have hne : k ≠ k2 := fun hh => h2 hh.symm
      simp only [upsert, if_neg h2, recKeys, List.map_cons] at ih ⊢
      rw [ih]
      by_cases hm : k ∈ List.map Prod.fst t
      · simp [hm, List.mem_cons, hne]
      · simp [hm, List.mem_cons, hne]

theorem mem_recKeys_upsert (a k : String) (v : α) (l : List (String × α)) :
    a ∈ recKeys (upsert k v l) ↔ a = k ∨ a ∈ recKeys l := by
  rw [recKeys_upsert]
  by_cases hm : k ∈ recKeys l
  · simp only [if_pos hm]
    constructor
    · exact Or.inr
    · rintro (rfl | h)
      · exact hm
      · exact h
  · simp only [if_neg hm, List.mem_append, List.mem_singleton]
    tauto

theorem nodup_recKeys_upsert (k : String) (v : α) (l : List (String × α))
    (h : (recKeys l).Nodup) : (recKeys (upsert k v l)).Nodup := by
  rw [recKeys_upsert]
  by_cases hm : k ∈ recKeys l
  · simpa [hm] using h
  · simp [if_neg hm, List.nodup_append, h, hm]

theorem getKey_updateKey (k' k : String) (f : α → α) (l : List (String × α)) :
    getKey k' (updateKey k f l) = if k = k' then (getKey k' l).map f else getKey k' l := by
  induction l with
  | nil => by_cases h : k = k' <;> simp [updateKey, getKey, h]
  | cons e t ih =>
    obtain ⟨k2, v2⟩ := e
    by_cases h2 : k2 = k
    · subst h2
      by_cases h : k2 = k' <;> simp [updateKey, getKey, h]
    · by_cases ha : k2 = k'
      · by_cases hb : k = k'
        · exact absurd (ha.trans hb.symm) h2
        · have hne : ¬ k' = k := fun hh => hb hh.symm
          simp [updateKey, getKey, h2, ha, hb, hne, ih]
      · by_cases hb : k = k'
        · subst hb
          simp [updateKey, getKey, h2, ha, ih]
        · simp [updateKey, getKey, h2, ha, hb, ih]

theorem map_if_id (k : String) (g : α → α) (l : List (String × α))
    (h : ∀ e ∈ l, e.1 ≠ k) :
    l.map (fun e => if e.1 = k then (e.1, g e.2) else e) = l := by
  induction l with
  | nil => rfl
  | cons e t ih =>
    have he : e.1 ≠ k := h e (List.mem_cons_self e t)
    simp only [List.map_cons, if_neg he]
    rw [ih (fun x hx => h x (List.mem_cons_of_mem e hx))]

theorem updateKey_eq_map (k : String) (g : α → α) (l : List (String × α))
    (h : (recKeys l).Nodup) :
    updateKey k g l = l.map (fun e => if e.1 = k then (e.1, g e.2) else e) := by
  induction l with
  | nil => rfl
  | cons e t ih =>
    obtain ⟨k2, v2⟩ := e
    simp only [recKeys, List.map_cons, List.nodup_cons] at h
    by_cases h2 : k2 = k
    · simp only [updateKey, List.map_cons, h2, eq_self_iff_true, if_true]
      rw [map_if_id k g t
        (fun x hx hk => (h2 ▸ h.1) (hk ▸ List.mem_map_of_mem Prod.fst hx))]
    · simp only [updateKey, List.map_cons, if_neg h2]
      rw [ih h.2]

theorem recKeys_updateKey (k : String) (f : α → α) (l : List (String × α)) :
    recKeys (updateKey k f l) = recKeys l := by
  induction l with
  | nil => rfl
  | cons e t ih =>
    obtain ⟨k2, v2⟩ := e
    by_cases h2 : k2 = k
    · simp only [updateKey, if_pos h2, recKeys, List.map_cons]
    · simp only [updateKey, if_neg h2, recKeys, List.map_cons]
      simp only [recKeys] at ih
      rw [ih]

theorem mem_upsert (e : String × α) (k : String) (v : α) (l : List (String × α))
    (h : e ∈ upsert k v l) : e = (k, v) ∨ e ∈ l := by
  induction l with
  | nil => simpa [upsert] using h
  | cons e2 t ih =>
    obtain ⟨k2, v2⟩ := e2
    by_cases h2 : k2 = k
    · subst h2
      simp only [upsert, eq_self_iff_true, if_true, List.mem_cons] at h
      rcases h with h | h
      · exact Or.inl h
      · exact Or.inr (List.mem_cons_of_mem _ h)
    · simp only [upsert, if_neg h2, List.mem_cons] at h
      rcases h with h | h
      · exact Or.inr (h ▸ List.mem_cons_self _ t)
      · rcases ih h with h3 | h3
        · exact Or.inl h3
        · exact Or.inr (List.mem_cons_of_mem _ h3)

end RecordLemmas

end AccessProbe

namespace AccessProbe

theorem applyAll_nil (u : String) (s : String → Option String)
    (o : Nat → FetchOutcome) (d : Nat → DebugOutcome) (rt : String) (inner : OpResults) :
    applyAll u s o d rt inner [] = inner := rfl

theorem applyAll_cons (u : String) (s : String → Option String)
    (o : Nat → FetchOutcome) (d : Nat → DebugOutcome) (rt : String) (inner : OpResults)
    (x : OperationConfig × Nat) (t : List (OperationConfig × Nat)) :
    applyAll u s o d rt inner (x :: t) =
      applyAll u s o d rt (upsert x.1.key (probeResultAt u s o d x.2 rt x.1) inner) t := rfl

theorem opsFor_cons_eq (rt rt2 : String) (op : OperationConfig)
    (rest : List (String × OperationConfig)) (i : Nat) :
    opsFor rt ((rt2, op) :: rest) i =
      if rt2 = rt then (op, i) :: opsFor rt rest (i + 1) else opsFor rt rest (i + 1) := rfl

theorem assignResults_eq_map (u : String) (s : String → Option String)
    (o : Nat → FetchOutcome) (d : Nat → DebugOutcome) :
    ∀ (ps : List (String × OperationConfig)) (i : Nat) (acc : BatchResults),
      (recKeys acc).Nodup →
      assignResults u s o d ps i acc =
        acc.map (fun e => (e.1, applyAll u s o d e.1 e.2 (opsFor e.1 ps i))) := by
  intro ps
  induction ps with
  | nil =>
    intro i acc hacc
    simp [assignResults, opsFor, applyAll_nil]
  | cons p rest ih =>
    obtain ⟨rt, op⟩ := p
    intro i acc hacc
    have hupd : (recKeys (updateKey rt
        (upsert op.key (probeResultAt u s o d i rt op)) acc)).Nodup := by
      rw [recKeys_updateKey]; exact hacc
    calc assignResults u s o d ((rt, op) :: rest) i acc
        = assignResults u s o d rest (i + 1)
            (updateKey rt (upsert op.key (probeResultAt u s o d i rt op)) acc) := rfl
      _ = (updateKey rt (upsert op.key (probeResultAt u s o d i rt op)) acc).map
            (fun e => (e.1, applyAll u s o d e.1 e.2 (opsFor e.1 rest (i + 1)))) :=
          ih (i + 1) _ hupd
      _ = (acc.map (fun e => if e.1 = rt then
              (e.1, upsert op.key (probeResultAt u s o d i rt op) e.2) else e)).map
            (fun e => (e.1, applyAll u s o d e.1 e.2 (opsFor e.1 rest (i + 1)))) := by
          rw [updateKey_eq_map _ _ _ hacc]
      _ = acc.map (fun e => (e.1, applyAll u s o d e.1 e.2 (opsFor e.1 ((rt, op) :: rest) i))) := by
          rw [List.map_map]
          apply List.map_congr_left
          intro e _
          by_cases he : e.1 = rt
          · simp only [Function.comp, if_pos he, opsFor_cons_eq, he, eq_self_iff_true,
              if_true, applyAll_cons]
          · have hne : ¬ rt = e.1 := fun hh => he hh.symm
            simp only [Function.comp, if_neg he, opsFor_cons_eq, if_neg hne]

end AccessProbe

namespace AccessProbe

theorem initFold_values : ∀ (rts : List String) (acc : BatchResults),
    (∀ e ∈ acc, e.2 = ([] : OpResults)) →
    ∀ e ∈ rts.foldl (fun a rt => upsert rt [] a) acc, e.2 = ([] : OpResults) := by
  intro rts
  induction rts with
  | nil => intro acc hacc e he; exact hacc e he
  | cons rt rest ih =>
    intro acc hacc e he
    refine ih (upsert rt [] acc) ?_ e he
    intro e2 he2
    rcases mem_upsert e2 rt [] acc he2 with h | h
    · rw [h]
    · exact hacc e2 h

theorem initFold_nodup : ∀ (rts : List String) (acc : BatchResults),
    (recKeys acc).Nodup →
    (recKeys (rts.foldl (fun a rt => upsert rt [] a) acc)).Nodup := by
  intro rts
  induction rts with
  | nil => intro acc hacc; exact hacc
  | cons rt rest ih =>
    intro acc hacc
    exact ih (upsert rt [] acc) (nodup_recKeys_upsert rt [] acc hacc)

theorem initFold_mem : ∀ (rts : List String) (acc : BatchResults) (a : String),
    a ∈ recKeys (rts.foldl (fun a2 rt => upsert rt [] a2) acc) ↔
      a ∈ recKeys acc ∨ a ∈ rts := by
  intro rts
  induction rts with
  | nil => intro acc a; simp
  | cons rt rest ih =>
    intro acc a
    rw [List.foldl_cons, ih (upsert rt [] acc) a, mem_recKeys_upsert]
    simp only [List.mem_cons]
    tauto

theorem initFold_getKey : ∀ (rts : List String) (acc : BatchResults) (a : String),
    getKey a (rts.foldl (fun a2 rt => upsert rt [] a2) acc) =
      if a ∈ rts then some [] else getKey a acc := by
  intro rts
  induction rts with
  | nil => intro acc a; simp
  | cons rt rest ih =>
    intro acc a
    rw [List.foldl_cons, ih (upsert rt [] acc) a, getKey_upsert]
    by_cases hm : a ∈ rest
    · simp [hm, List.mem_cons]
    · by_cases he : rt = a
      · simp [hm, he, List.mem_cons]
      · have : ¬ a = rt := fun hh => he hh.symm
        simp [hm, he, this, List.mem_cons]

theorem pairsOf_nil : pairsOf [] = [] := rfl

theorem pairsOf_cons (rt : String) (rest : List String) :
    pairsOf (rt :: rest) = (OPERATIONS.map (fun op => (rt, op))) ++ pairsOf rest := by
  simp [pairsOf]

theorem length_pairsOf (rts : List String) :
    (pairsOf rts).length = 6 * rts.length := by
  induction rts with
  | nil => rfl
  | cons rt rest ih =>
    rw [pairsOf_cons, List.length_append, ih, List.length_map]
    have h6 : OPERATIONS.length = 6 := rfl
    rw [h6, List.length_cons]
    omega

theorem opsFor_append (rt : String) :
    ∀ (a b : List (String × OperationConfig)) (i : Nat),
      opsFor rt (a ++ b) i = opsFor rt a i ++ opsFor rt b (i + a.length) := by
  intro a
  induction a with
  | nil => intro b i; simp [opsFor]
  | cons p rest ih =>
    intro b i
    obtain ⟨rt2, op⟩ := p
    have harith : i + 1 + rest.length = i + (rest.length + 1) := by omega
    by_cases h : rt2 = rt
    · simp only [List.cons_append, opsFor_cons_eq, if_pos h, ih, List.length_cons, harith]
    · simp only [List.cons_append, opsFor_cons_eq, if_neg h, ih, List.length_cons, harith]

theorem opsFor_block_self (rt : String) :
    ∀ (l : List OperationConfig) (i : Nat),
      opsFor rt (l.map (fun op => (rt, op))) i = enumFrom i l := by
  intro l
  induction l with
  | nil => intro i; rfl
  | cons op t ih =>
    intro i
    simp only [List.map_cons, opsFor_cons_eq, eq_self_iff_true, if_true, enumFrom, ih]

theorem opsFor_block_other (rt rt2 : String) (h : rt2 ≠ rt) :
    ∀ (l : List OperationConfig) (i : Nat),
      opsFor rt (l.map (fun op => (rt2, op))) i = [] := by
  intro l
  induction l with
  | nil => intro i; rfl
  | cons op t ih =>
    intro i
    simp only [List.map_cons, opsFor_cons_eq, if_neg h, ih]

theorem opsFor_pairs_absent (rt : String) :
    ∀ (ys : List String), rt ∉ ys → ∀ i, opsFor rt (pairsOf ys) i = [] := by
  intro ys
  induction ys with
  | nil => intro _ i; rfl
  | cons y rest ih =>
    intro hmem i
    have hy : y ≠ rt := fun hh => hmem (hh ▸ List.mem_cons_self y rest)
    rw [pairsOf_cons, opsFor_append, opsFor_block_other rt y hy,
      ih (fun hh => hmem (List.mem_cons_of_mem y hh))]
    rfl

theorem keys_enumFrom (l : List OperationConfig) :
    ∀ i, (enumFrom i l).map (fun oi => oi.1.key) = l.map (fun op => op.key) := by
  induction l with
  | nil => intro i; rfl
  | cons op t ih =>
    intro i
    simp only [enumFrom, List.map_cons, ih]

theorem mem_keys_opsFor_pairs (rt a : String) :
    ∀ (rts : List String) (i : Nat),
      a ∈ (opsFor rt (pairsOf rts) i).map (fun oi => oi.1.key) ↔
        rt ∈ rts ∧ a ∈ OPERATIONS.map (fun op => op.key) := by
  intro rts
  induction rts with
  | nil => intro i; simp [pairsOf, opsFor]
  | cons r rest ih =>
    intro i
    rw [pairsOf_cons, opsFor_append, List.map_append, List.mem_append]
    by_cases h : r = rt
    · subst h
      rw [opsFor_block_self, keys_enumFrom, ih]
      simp only [List.mem_cons]
      tauto
    · rw [opsFor_block_other rt r h, ih]
      simp only [List.mem_cons, List.map_nil, List.not_mem_nil, false_or]
      constructor
      · rintro ⟨hm, hk⟩
        exact ⟨Or.inr hm, hk⟩
      · rintro ⟨hm | hm, hk⟩
        · exact absurd hm.symm h
        · exact ⟨hm, hk⟩

end AccessProbe

namespace AccessProbe

theorem getKey_applyAll (u : String) (s : String → Option String)
    (o : Nat → FetchOutcome) (d : Nat → DebugOutcome) (rt k : String) :
    ∀ (l : List (OperationConfig × Nat)) (inner : OpResults),
      getKey k (applyAll u s o d rt inner l) =
        match lastMatch k l with
        | some oi => some (probeResultAt u s o d oi.2 rt oi.1)
        | none => getKey k inner := by
  intro l
  induction l with
  | nil => intro inner; rfl
  | cons x t ih =>
    intro inner
    rw [applyAll_cons, ih]
    show _ = (match lastMatch k (x :: t) with
      | some oi => some (probeResultAt u s o d oi.2 rt oi.1)
      | none => getKey k inner)
    cases hlm : lastMatch k t with
    | some y => simp [lastMatch, hlm]
    | none =>
      simp only [lastMatch, hlm, getKey_upsert]
      by_cases hk : x.1.key = k
      · simp [hk]
      · simp [hk]

theorem mem_recKeys_applyAll (u : String) (s : String → Option String)
    (o : Nat → FetchOutcome) (d : Nat → DebugOutcome) (rt a : String) :
    ∀ (l : List (OperationConfig × Nat)) (inner : OpResults),
      a ∈ recKeys (applyAll u s o d rt inner l) ↔
        a ∈ recKeys inner ∨ a ∈ l.map (fun oi => oi.1.key) := by
  intro l
  induction l with
  | nil => intro inner; simp [applyAll_nil]
  | cons x t ih =>
    intro inner
    rw [applyAll_cons, ih, mem_recKeys_upsert]
    simp only [List.map_cons, List.mem_cons]
    tauto

theorem nodup_recKeys_applyAll (u : String) (s : String → Option String)
    (o : Nat → FetchOutcome) (d : Nat → DebugOutcome) (rt : String) :
    ∀ (l : List (OperationConfig × Nat)) (inner : OpResults),
      (recKeys inner).Nodup → (recKeys (applyAll u s o d rt inner l)).Nodup := by
  intro l
  induction l with
  | nil => intro inner h; exact h
  | cons x t ih =>
    intro inner h
    rw [applyAll_cons]
    exact ih _ (nodup_recKeys_upsert _ _ _ h)

theorem opKeys_nodup : (OPERATIONS.map (fun op => op.key)).Nodup := by
  simp [OPERATIONS]

theorem length_inner_applyAll (u : String) (s : String → Option String)
    (o : Nat → FetchOutcome) (d : Nat → DebugOutcome) (rt : String)
    (rts : List String) (hmem : rt ∈ rts) :
    (applyAll u s o d rt [] (opsFor rt (pairsOf rts) 0)).length = 6 := by
  have hlen : (applyAll u s o d rt [] (opsFor rt (pairsOf rts) 0)).length
      = (recKeys (applyAll u s o d rt [] (opsFor rt (pairsOf rts) 0))).length := by
    simp [recKeys]
  rw [hlen]
  have hnd : (recKeys (applyAll u s o d rt [] (opsFor rt (pairsOf rts) 0))).Nodup :=
    nodup_recKeys_applyAll u s o d rt _ [] (by simp [recKeys])
  have hperm : List.Perm (recKeys (applyAll u s o d rt [] (opsFor rt (pairsOf rts) 0)))
      (OPERATIONS.map (fun op => op.key)) := by
    rw [List.perm_ext_iff_of_nodup hnd opKeys_nodup]
    intro a
    rw [mem_recKeys_applyAll, mem_keys_opsFor_pairs]
    simp [recKeys, hmem]
  rw [hperm.length_eq]
  rfl

end AccessProbe

namespace AccessProbe

theorem lastMatch_append (k : String) :
    ∀ (a b : List (OperationConfig × Nat)),
      lastMatch k (a ++ b) =
        match lastMatch k b with
        | some y => some y
        | none => lastMatch k a := by
  intro a
  induction a with
  | nil =>
    intro b
    cases hlb : lastMatch k b with
    | some y => simp [hlb]
    | none => simp [lastMatch, hlb]
  | cons x t ih =>
    intro b
    show (match lastMatch k (t ++ b) with
      | some y => some y
      | none => if x.1.key = k then some x else none) = _
    rw [ih b]
    cases hlb : lastMatch k b with
    | some y => simp [lastMatch]
    | none =>
      cases hlt : lastMatch k t with
      | some y => simp [lastMatch, hlt]
      | none => simp [lastMatch, hlt]

theorem lastMatch_eq_none_iff (k : String) :
    ∀ (l : List (OperationConfig × Nat)),
      lastMatch k l = none ↔ k ∉ l.map (fun oi => oi.1.key) := by
  intro l
  induction l with
  | nil => simp [lastMatch]
  | cons x t ih =>
    simp only [List.map_cons, List.mem_cons]
    cases hlt : lastMatch k t with
    | some y =>
      simp only [lastMatch, hlt]
      constructor
      · intro h; exact absurd h (by simp)
      · intro h
        exact absurd (ih.not.mp (by simp [hlt])) (by tauto)
    | none =>
      simp only [lastMatch, hlt]
      by_cases hk : x.1.key = k
      · simp [hk]
      · have : ¬ k = x.1.key := fun hh => hk hh.symm
        simp [hk, this, ih.mp hlt]

theorem getKey_map_keyed {β : Type} (k : String) (g : String → β → β) :
    ∀ (l : List (String × β)),
      getKey k (l.map (fun e => (e.1, g e.1 e.2))) = (getKey k l).map (g k) := by
  intro l
  induction l with
  | nil => rfl
  | cons e t ih =>
    obtain ⟨k2, v⟩ := e
    by_cases h : k2 = k
    · subst h
      simp [getKey]
    · simp [getKey, h, ih]

theorem getKey_batch (rts : List String) (u : String) (s : String → Option String)
    (o : Nat → FetchOutcome) (d : Nat → DebugOutcome) (rt : String) :
    getKey rt (testAccessBatch rts u s o d) =
      if rt ∈ rts then some (applyAll u s o d rt [] (opsFor rt (pairsOf rts) 0))
      else none := by
  show getKey rt (assignResults u s o d (pairsOf rts) 0 (initResults rts)) = _
  rw [assignResults_eq_map u s o d (pairsOf rts) 0 (initResults rts)
    (initFold_nodup rts [] (by simp [recKeys]))]
  rw [getKey_map_keyed rt (fun a inner => applyAll u s o d a inner (opsFor a (pairsOf rts) 0))]
  show ((getKey rt (List.foldl (fun a2 rt2 => upsert rt2 [] a2) [] rts)).map _) = _
  rw [initFold_getKey rts [] rt]
  by_cases hm : rt ∈ rts
  · simp [hm]
  · simp [hm, getKey]

theorem totalEntries_batch (rts : List String) (u : String) (s : String → Option String)
    (o : Nat → FetchOutcome) (d : Nat → DebugOutcome) :
    totalEntries (testAccessBatch rts u s o d) = 6 * rts.dedup.length := by
  show totalEntries (assignResults u s o d (pairsOf rts) 0 (initResults rts)) = _
  rw [assignResults_eq_map u s o d (pairsOf rts) 0 (initResults rts)
    (initFold_nodup rts [] (by simp [recKeys]))]
  unfold totalEntries
  rw [List.map_map]
  have hconst : (initResults rts).map
      ((fun e => e.2.length) ∘ (fun e => (e.1, applyAll u s o d e.1 e.2 (opsFor e.1 (pairsOf rts) 0))))
      = (initResults rts).map (fun _ => 6) := by
    apply List.map_congr_left
    intro e he
    have hval : e.2 = ([] : OpResults) :=
      initFold_values rts [] (by simp) e he
    have hmem : e.1 ∈ rts := by
      have h1 : e.1 ∈ recKeys (initResults rts) := List.mem_map_of_mem Prod.fst he
      have := (initFold_mem rts [] e.1).mp h1
      simpa [recKeys] using this
    simp only [Function.comp]
    rw [hval]
    exact length_inner_applyAll u s o d e.1 rts hmem
  rw [hconst]
  have hlen : (initResults rts).length = rts.dedup.length := by
    have h1 : (initResults rts).length = (recKeys (initResults rts)).length := by
      simp [recKeys]
    have hnd : (recKeys (initResults rts)).Nodup :=
      initFold_nodup rts [] (by simp [recKeys])
    have hperm : List.Perm (recKeys (initResults rts)) rts.dedup := by
      rw [List.perm_ext_iff_of_nodup hnd (List.nodup_dedup rts)]
      intro a
      rw [List.mem_dedup]
      have := initFold_mem rts [] a
      simpa [recKeys] using this
    rw [h1, hperm.length_eq]
  rw [List.map_const', List.sum_replicate, hlen]
  simp [Nat.mul_comm]

end AccessProbe

namespace AccessProbe

theorem lastMatch_enumFrom_get (j : Nat) (hj : j < OPERATIONS.length) (i0 : Nat) :
    lastMatch (OPERATIONS.get ⟨j, hj⟩).key (enumFrom i0 OPERATIONS) =
      some (OPERATIONS.get ⟨j, hj⟩, i0 + j) := by
  have h6 : OPERATIONS.length = 6 := rfl
  rw [h6] at hj
  interval_cases j <;>
    simp [OPERATIONS, enumFrom, lastMatch, List.get, Nat.add_assoc]

theorem pairsOf_append (xs ys : List String) :
    pairsOf (xs ++ ys) = pairsOf xs ++ pairsOf ys := by
  simp [pairsOf, List.map_append, List.flatten_append]

theorem opsFor_last_occurrence (rt : String) (xs ys : List String) (hys : rt ∉ ys) :
    opsFor rt (pairsOf (xs ++ rt :: ys)) 0 =
      opsFor rt (pairsOf xs) 0 ++ enumFrom (6 * xs.length) OPERATIONS := by
  rw [pairsOf_append, pairsOf_cons, opsFor_append]
  rw [opsFor_append, opsFor_block_self, opsFor_pairs_absent rt ys hys, List.append_nil]
  rw [Nat.zero_add, length_pairsOf]

end AccessProbe

namespace AccessProbe

theorem applyAll_congr (u : String) (s : String → Option String)
    (o o2 : Nat → FetchOutcome) (d d2 : Nat → DebugOutcome) (rt : String) :
    ∀ (l : List (OperationConfig × Nat)) (inner : OpResults),
      (∀ oi ∈ l, o oi.2 = o2 oi.2 ∧ d oi.2 = d2 oi.2) →
      applyAll u s o d rt inner l = applyAll u s o2 d2 rt inner l := by
  intro l
  induction l with
  | nil => intro inner _; rfl
  | cons x t ih =>
    intro inner h
    have hx := h x (List.mem_cons_self x t)
    rw [applyAll_cons, applyAll_cons]
    have hres : probeResultAt u s o d x.2 rt x.1 = probeResultAt u s o2 d2 x.2 rt x.1 := by
      unfold probeResultAt
      rw [hx.1, hx.2]
    rw [hres, ih _ (fun oi hoi => h oi (List.mem_cons_of_mem x hoi))]

/-- C2: for a set of `N` distinct resource types, `testAccessBatch` returns
exactly `N × 6` entries — one per (resourceType, operation) pair over the
six catalog operations — for every outcome assignment, including total
failure. -/
theorem batch_entry_count :
    ∀ (rts : List String) (u : String) (s : String → Option String)
      (o : Nat → FetchOutcome) (d : Nat → DebugOutcome),
      rts.Nodup →
      totalEntries (testAccessBatch rts u s o d) = 6 * rts.length ∧
      (∀ rt ∈ rts, ∀ op ∈ OPERATIONS,
        (lookupResult (testAccessBatch rts u s o d) rt op.key).isSome = true) := by
  intro rts u s o d hnd
  constructor
  · rw [totalEntries_batch, List.dedup_eq_self.mpr hnd]
  · intro rt hrt op hop
    unfold lookupResult
    rw [getKey_batch]
    simp only [if_pos hrt]
    rw [getKey_applyAll]
    cases hlm : lastMatch op.key (opsFor rt (pairsOf rts) 0) with
    | some oi => simp
    | none =>
      exfalso
      rw [lastMatch_eq_none_iff] at hlm
      exact hlm ((mem_keys_opsFor_pairs rt op.key rts 0).mpr
        ⟨hrt, List.mem_map_of_mem (fun op2 => op2.key) hop⟩)

/-- Witness for C2: probing two resource types with every request failing
still yields 12 entries. -/
theorem batch_entry_count_witness :
    totalEntries (testAccessBatch ["Patient", "Observation"] "Bearer t"
      (fun _ => none) (fun _ => .err none) (fun _ => .err)) = 12 :=
  (batch_entry_count ["Patient", "Observation"] "Bearer t"
    (fun _ => none) (fun _ => .err none) (fun _ => .err) (by decide)).1

/-- C3: a thrown probe request is caught at single-probe granularity and
becomes a result with status 0, all flags false and a populated error;
the entry of a resource type in a batch depends only on the outcomes of
its own probe indices, so sibling failures leave it unchanged. -/
theorem probe_error_isolated :
    (∀ (rt : String) (op : OperationConfig) (u : String) (sid : Option String)
        (m : Option String) (dbg : DebugOutcome),
      testSingleOperation rt op u sid (.err m) dbg =
        ({ operation := op.key, resourceType := rt, method := op.method,
           path := "/fhir/" ++ op.getUrl rt (jsOrStr sid none), status := 0,
           statusText := "Error", accessPolicy := none, allowed := false,
           unauthorized := false, denied := false, notFound := false,
           error := some (m.getD "Unknown error"), body := none }, 0)) ∧
    (∀ (rts : List String) (rt u : String) (s : String → Option String)
        (o o2 : Nat → FetchOutcome) (d d2 : Nat → DebugOutcome),
      (∀ oi ∈ opsFor rt (pairsOf rts) 0, o oi.2 = o2 oi.2 ∧ d oi.2 = d2 oi.2) →
      getKey rt (testAccessBatch rts u s o d) = getKey rt (testAccessBatch rts u s o2 d2)) := by
  constructor
  · intro rt op u sid m dbg
    rfl
  · intro rts rt u s o o2 d d2 h
    rw [getKey_batch, getKey_batch]
    by_cases hm : rt ∈ rts
    · simp only [if_pos hm]
      rw [applyAll_congr u s o o2 d d2 rt _ [] h]
    · simp [hm]

/-- Witness for C3: changing outcomes at indices outside a resource type's
own six probes (here index 6 and beyond) does not change its entry. -/
theorem probe_error_isolated_witness :
    getKey "Patient" (testAccessBatch ["Patient"] "Bearer t" (fun _ => none)
      (fun i => if i < 6 then .err none else .ok ⟨200, none, none, none, none⟩)
      (fun _ => .err)) =
    getKey "Patient" (testAccessBatch ["Patient"] "Bearer t" (fun _ => none)
      (fun _ => .err none) (fun _ => .err)) :=
  probe_error_isolated.2 ["Patient"] "Patient" "Bearer t" (fun _ => none)
    (fun i => if i < 6 then .err none else .ok ⟨200, none, none, none, none⟩)
    (fun _ => .err none) (fun _ => .err) (fun _ => .err) (by decide)

/-- C10: the result set is keyed by resource-type name: the request count
covers duplicates (`6 × N` requests), the entry count is `6 ×` the number
of distinct names, the `N × 6` entry count holds exactly when the names are
distinct, and the stored entry of a name is computed from the probe indices
of its last occurrence, overwriting earlier ones. -/
theorem duplicate_names_overwrite :
    (∀ rts : List String, requestCount rts = 6 * rts.length) ∧
    (∀ (rts : List String) (u : String) (s : String → Option String)
        (o : Nat → FetchOutcome) (d : Nat → DebugOutcome),
      totalEntries (testAccessBatch rts u s o d) = 6 * rts.dedup.length) ∧
    (∀ (rts : List String) (u : String) (s : String → Option String)
        (o : Nat → FetchOutcome) (d : Nat → DebugOutcome),
      (totalEntries (testAccessBatch rts u s o d) = 6 * rts.length ↔ rts.Nodup)) ∧
    (∀ (xs ys : List String) (rt u : String) (s : String → Option String)
        (o : Nat → FetchOutcome) (d : Nat → DebugOutcome)
        (j : Nat) (hj : j < OPERATIONS.length), rt ∉ ys →
      lookupResult (testAccessBatch (xs ++ rt :: ys) u s o d) rt
          (OPERATIONS.get ⟨j, hj⟩).key =
        some ((testSingleOperation rt (OPERATIONS.get ⟨j, hj⟩) u (s rt)
          (o (6 * xs.length + j)) (d (6 * xs.length + j))).1)) := by
  refine ⟨?_, ?_, ?_, ?_⟩
  · intro rts
    exact length_pairsOf rts
  · intro rts u s o d
    exact totalEntries_batch rts u s o d
  · intro rts u s o d
    rw [totalEntries_batch]
    constructor
    · intro h
      have hlen : rts.dedup.length = rts.length := by omega
      have := List.Sublist.eq_of_length (List.dedup_sublist rts) hlen
      exact List.dedup_eq_self.mp this
    · intro h
      rw [List.dedup_eq_self.mpr h]
  · intro xs ys rt u s o d j hj hys
    have hmem : rt ∈ xs ++ rt :: ys :=
      List.mem_append_right xs (List.mem_cons_self rt ys)
    unfold lookupResult
    rw [getKey_batch]
    simp only [if_pos hmem]
    rw [getKey_applyAll, opsFor_last_occurrence rt xs ys hys, lastMatch_append,
      lastMatch_enumFrom_get j hj (6 * xs.length)]
    simp [probeResultAt]

/-- Witness for C10: with the input `["Patient", "Patient"]`, the stored
search entry of `Patient` comes from probe index 6 — the first probe of the
second (last) occurrence. -/
theorem duplicate_names_overwrite_witness :
    lookupResult (testAccessBatch ["Patient", "Patient"] "Bearer t" (fun _ => none)
        (fun i => .ok ⟨200 + i, none, none, none, none⟩) (fun _ => .err))
        "Patient" "search" =
      some ((testSingleOperation "Patient" (OPERATIONS.get ⟨0, by decide⟩) "Bearer t" none
        (.ok ⟨206, none, none, none, none⟩) .err).1) :=
  duplicate_names_overwrite.2.2.2 ["Patient"] [] "Patient" "Bearer t" (fun _ => none)
    (fun i => .ok ⟨200 + i, none, none, none, none⟩) (fun _ => .err) 0 (by decide) (by decide)

/-- C7: `compareAccess` fails as a whole when either credential resolution
fails (never substituting an empty result set), and on success returns both
complete probe result sets unmodified. -/
theorem compare_propagates_failures :
    ∀ (rts : List String) (uacid : String) (a1 a2 : UserAuthInfo)
      (tokC1 tokC2 : TokenHttpOutcome) (tokU1 tokU2 : UserTokenExchange)
      (o1 o2 : Nat → FetchOutcome) (d1 d2 : Nat → DebugOutcome) (e h1 h2 : String),
      (resolveAuthHeader uacid a1 tokC1 tokU1 = .error e →
        compareAccess rts uacid a1 a2 tokC1 tokU1 tokC2 tokU2 o1 d1 o2 d2 = .error e) ∧
      (resolveAuthHeader uacid a1 tokC1 tokU1 = .ok h1 →
        resolveAuthHeader uacid a2 tokC2 tokU2 = .error e →
        compareAccess rts uacid a1 a2 tokC1 tokU1 tokC2 tokU2 o1 d1 o2 d2 = .error e) ∧
      (resolveAuthHeader uacid a1 tokC1 tokU1 = .ok h1 →
        resolveAuthHeader uacid a2 tokC2 tokU2 = .ok h2 →
        compareAccess rts uacid a1 a2 tokC1 tokU1 tokC2 tokU2 o1 d1 o2 d2 =
          .ok ⟨testAccessBatch rts h1 (fun _ => none) o1 d1,
               testAccessBatch rts h2 (fun _ => none) o2 d2⟩) := by
  intro rts uacid a1 a2 tokC1 tokC2 tokU1 tokU2 o1 o2 d1 d2 e h1 h2
  refine ⟨?_, ?_, ?_⟩
  · intro hr1
    simp [compareAccess, hr1]
  · intro hr1 hr2
    simp [compareAccess, hr1, hr2]
  · intro hr1 hr2
    simp [compareAccess, hr1, hr2]

/-- Witness for C7: a client identity without a secret fails resolution and
the whole comparison fails with that error. -/
theorem compare_propagates_failures_witness :
    compareAccess ["Patient"] "auth-client" ⟨.client, "c1", none, none⟩
        ⟨.client, "c2", some "s2", none⟩ (.httpFail 500 "x")
        ⟨200, ⟨"t", "bearer", none, none, none⟩⟩
        (.success ⟨"t2", "bearer", none, none, none⟩)
        ⟨200, ⟨"t2", "bearer", none, none, none⟩⟩
        (fun _ => .err none) (fun _ => .err) (fun _ => .err none) (fun _ => .err) =
      .error "Client secret is required for client authentication." :=
  (compare_propagates_failures ["Patient"] "auth-client" ⟨.client, "c1", none, none⟩
    ⟨.client, "c2", some "s2", none⟩ (.httpFail 500 "x")
    (.success ⟨"t2", "bearer", none, none, none⟩)
    ⟨200, ⟨"t", "bearer", none, none, none⟩⟩
    ⟨200, ⟨"t2", "bearer", none, none, none⟩⟩
    (fun _ => .err none) (fun _ => .err none) (fun _ => .err) (fun _ => .err)
    "Client secret is required for client authentication." "" "").1 rfl

end AccessProbe
